import Mathlib

/-!
Shallow embedding of the whoosh repository's matcher algebra
(src/whoosh/matching.py), merge policy (src/whoosh/filedb/filewriting.py),
segment deletion bookkeeping (src/whoosh/filedb/fileindex.py) and typed
array I/O (src/whoosh/filedb/structfile.py), together with proofs settling
the specification claims about them.

Docids are modelled as `Nat`, weights and scores as `ℚ` (the Python floats
are only ever copied, added, multiplied and compared in the claims at
issue).  Python exceptions are modelled by an explicit error type; loops
are modelled by fuel-indexed structural recursion where the fuel bound is
chosen so that it can never run out on the paths the source can take.
-/

namespace Whoosh

/-- Errors raised by matcher movement methods: `ReadTooFar` from
whoosh.matching, and Python's `IndexError` (a list indexed past its end,
which is what `ListMatcher.id` does on an exhausted matcher).  `fuel` is a
modelling artifact marking exhaustion of recursion fuel; the fuel bounds
used below make it unreachable. -/
inductive Err where
  | readTooFar
  | index
  | fuel
deriving DecidableEq

/-- `ListMatcher(ids, position=0, weight=1.0)`: the synthetic leaf matcher
backed by a list of ids (matching.py line 323).  `i` is the cursor
`self._i`, `w` the weight `self._weight`. -/
structure ListMatcher where
  ids : List Nat
  i : Nat
  w : ℚ
deriving DecidableEq

/-- A fresh `ListMatcher(ids)` with the source's default position 0 and
weight 1.0. -/
def ListMatcher.fresh (ids : List Nat) : ListMatcher := ⟨ids, 0, 1⟩

/-- `ListMatcher.is_active`: `self._i < len(self._ids)`. -/
def ListMatcher.is_active (m : ListMatcher) : Bool :=
  decide (m.i < m.ids.length)

/-- `ListMatcher.id`: `self._ids[self._i]`; `none` models the IndexError
raised when the cursor is past the end. -/
def ListMatcher.id (m : ListMatcher) : Option Nat :=
  m.ids[m.i]?

/-- `ListMatcher.next`: `self._i += 1` (no activity check, no exception). -/
def ListMatcher.next (m : ListMatcher) : ListMatcher :=
  { m with i := m.i + 1 }

/-- `ListMatcher.score`: returns `self._weight`. -/
def ListMatcher.score (m : ListMatcher) : ℚ := m.w

/-- Loop body of the inherited `Matcher.skip_to` (matching.py lines
278-284): `while self.is_active() and self.id() < id: self.next()`.
The fuel is the number of postings left, which bounds the iterations. -/
def ListMatcher.skipAux : Nat → Nat → ListMatcher → ListMatcher
  | 0, _, m => m
  | fuel + 1, t, m =>
    match m.id with
    | some x => if x < t then ListMatcher.skipAux fuel t m.next else m
    | none => m

/-- `Matcher.skip_to` as inherited by `ListMatcher`: advances while active
and `id() < t`; returns normally (without moving) on an exhausted
matcher. -/
def ListMatcher.skip_to (t : Nat) (m : ListMatcher) : ListMatcher :=
  ListMatcher.skipAux (m.ids.length - m.i) t m

/-- The postings still ahead of the cursor. -/
def ListMatcher.rest (m : ListMatcher) : List Nat := m.ids.drop m.i

/-- `UnionMatcher(a, b)` over two `ListMatcher` children (matching.py
line 619). -/
structure UnionMatcher where
  a : ListMatcher
  b : ListMatcher
deriving DecidableEq

/-- `UnionMatcher.is_active`: `self.a.is_active() or self.b.is_active()`. -/
def UnionMatcher.is_active (u : UnionMatcher) : Bool :=
  u.a.is_active || u.b.is_active

/-- `UnionMatcher.id` (matching.py lines 650-655): the child's id when only
one child is active, else the minimum of the two ids. -/
def UnionMatcher.id (u : UnionMatcher) : Option Nat :=
  if !u.a.is_active then u.b.id
  else if !u.b.is_active then u.a.id
  else do
    let x ← u.a.id
    let y ← u.b.id
    pure (min x y)

/-- `UnionMatcher.next` (matching.py lines 660-679): `ReadTooFar` when both
children are inactive, delegation when one is, otherwise advance every
child whose id equals the current minimum.  The final `.error .index`
branch is unreachable: an active `ListMatcher` always has an id. -/
def UnionMatcher.next (u : UnionMatcher) : Except Err UnionMatcher :=
  if !u.a.is_active && !u.b.is_active then .error .readTooFar
  else if !u.a.is_active then .ok { u with b := u.b.next }
  else if !u.b.is_active then .ok { u with a := u.a.next }
  else
    match u.a.id, u.b.id with
    | some x, some y =>
        .ok ⟨if x ≤ y then u.a.next else u.a, if y ≤ x then u.b.next else u.b⟩
    | _, _ => .error .index

/-- `UnionMatcher.skip_to` (matching.py lines 642-648): each still-active
child skips independently; returns normally even when both children are
exhausted (no `ReadTooFar`). -/
def UnionMatcher.skip_to (t : Nat) (u : UnionMatcher) : UnionMatcher :=
  ⟨if u.a.is_active then u.a.skip_to t else u.a,
   if u.b.is_active then u.b.skip_to t else u.b⟩

/-- Number of postings left in both children; every successful
`UnionMatcher.next` consumes at least one. -/
def UnionMatcher.remaining (u : UnionMatcher) : Nat :=
  (u.a.ids.length - u.a.i) + (u.b.ids.length - u.b.i)

/-- The traversal protocol of the claims: repeatedly read `id()` and call
`next()` until `is_active()` is false, collecting the ids read.  The two
non-`.ok` fallbacks are unreachable for a union of `ListMatcher`s. -/
def UnionMatcher.runAux : Nat → UnionMatcher → List Nat
  | 0, _ => []
  | fuel + 1, u =>
    if u.is_active then
      match u.id, u.next with
      | some x, .ok u' => x :: UnionMatcher.runAux fuel u'
      | _, _ => []
    else []

/-- Traversal of a union matcher, with enough fuel for all its postings. -/
def UnionMatcher.run (u : UnionMatcher) : List Nat :=
  UnionMatcher.runAux u.remaining u

/-- Sorted merge-without-duplicates of two lists; for strictly ascending
inputs this is `sorted(set(A) | set(B))`. -/
def mergeU : List Nat → List Nat → List Nat
  | [], ys => ys
  | x :: xs, [] => x :: xs
  | x :: xs, y :: ys =>
    if x < y then x :: mergeU xs (y :: ys)
    else if y < x then y :: mergeU (x :: xs) ys
    else x :: mergeU xs ys
termination_by a b => a.length + b.length

/-! Bridge lemmas relating a `ListMatcher` cursor state to the suffix of
postings still ahead of it. -/

theorem ListMatcher.id_eq_head?_rest (m : ListMatcher) : m.id = m.rest.head? := by
  simp [ListMatcher.id, ListMatcher.rest, List.head?_drop]

theorem ListMatcher.is_active_true_iff (m : ListMatcher) :
    m.is_active = true ↔ m.rest ≠ [] := by
  simp [ListMatcher.is_active, ListMatcher.rest, List.drop_eq_nil_iff]

theorem ListMatcher.is_active_false_iff (m : ListMatcher) :
    m.is_active = false ↔ m.rest = [] := by
  rw [← Bool.not_eq_true, not_iff_comm, ListMatcher.is_active_true_iff]

theorem ListMatcher.rest_next (m : ListMatcher) : m.next.rest = m.rest.tail := by
  simp [ListMatcher.next, ListMatcher.rest, List.tail_drop]

theorem ListMatcher.length_rest (m : ListMatcher) :
    m.rest.length = m.ids.length - m.i := by
  simp [ListMatcher.rest]

theorem UnionMatcher.remaining_eq (u : UnionMatcher) :
    u.remaining = u.a.rest.length + u.b.rest.length := by
  simp [UnionMatcher.remaining, ListMatcher.length_rest]

/-! Properties of `mergeU`. -/

theorem mem_mergeU (z : Nat) :
    ∀ (A B : List Nat), z ∈ mergeU A B ↔ z ∈ A ∨ z ∈ B := by
  intro A B
  induction A, B using mergeU.induct with
  | case1 ys => simp [mergeU]
  | case2 x xs => simp [mergeU]
  | case3 x xs y ys hxy ih =>
      simp only [mergeU, if_pos hxy, List.mem_cons, ih]
      tauto
  | case4 x xs y ys hxy hyx ih =>
      simp only [mergeU, if_neg hxy, if_pos hyx, List.mem_cons, ih]
      tauto
  | case5 x xs y ys hxy hyx ih =>
      have hxy' : x = y := by omega
      subst hxy'
      simp only [mergeU, if_neg hxy, if_neg hyx, List.mem_cons, ih]
      tauto

theorem pairwise_mergeU :
    ∀ (A B : List Nat), A.Pairwise (· < ·) → B.Pairwise (· < ·) →
      (mergeU A B).Pairwise (· < ·) := by
  intro A B hA hB
  induction A, B using mergeU.induct with
  | case1 ys => simpa [mergeU] using hB
  | case2 x xs => simpa [mergeU] using hA
  | case3 x xs y ys hxy ih =>
      rw [List.pairwise_cons] at hA
      simp only [mergeU, if_pos hxy, List.pairwise_cons]
      refine ⟨?_, ih hA.2 hB⟩
      intro z hz
      rcases (mem_mergeU z xs (y :: ys)).1 hz with h | h
      · exact hA.1 z h
      · rcases List.mem_cons.1 h with rfl | h
        · exact hxy
        · rw [List.pairwise_cons] at hB
          exact lt_trans hxy (hB.1 z h)
  | case4 x xs y ys hxy hyx ih =>
      rw [List.pairwise_cons] at hB
      simp only [mergeU, if_neg hxy, if_pos hyx, List.pairwise_cons]
      refine ⟨?_, ih hA hB.2⟩
      intro z hz
      rcases (mem_mergeU z (x :: xs) ys).1 hz with h | h
      · rcases List.mem_cons.1 h with rfl | h
        · exact hyx
        · rw [List.pairwise_cons] at hA
          exact lt_trans hyx (hA.1 z h)
      · exact hB.1 z h
  | case5 x xs y ys hxy hyx ih =>
      have hxy' : x = y := by omega
      subst hxy'
      rw [List.pairwise_cons] at hA
      rw [List.pairwise_cons] at hB
      simp only [mergeU, if_neg hxy, if_neg hyx, List.pairwise_cons]
      refine ⟨?_, ih hA.2 hB.2⟩
      intro z hz
      rcases (mem_mergeU z xs ys).1 hz with h | h
      · exact hA.1 z h
      · exact hB.1 z h

/-- Core refinement for C1: with enough fuel, the id()/next() traversal of
a union of two strictly ascending `ListMatcher`s produces the sorted
duplicate-free merge of the postings ahead of the two cursors. -/
theorem UnionMatcher.runAux_eq_mergeU :
    ∀ (fuel : Nat) (u : UnionMatcher), u.remaining ≤ fuel →
      u.a.rest.Pairwise (· < ·) → u.b.rest.Pairwise (· < ·) →
      UnionMatcher.runAux fuel u = mergeU u.a.rest u.b.rest := by
  intro fuel
  induction fuel with
  | zero =>
      intro u hf _ _
      rw [UnionMatcher.remaining_eq] at hf
      have ha : u.a.rest = [] := by
        cases h : u.a.rest with
        | nil => rfl
        | cons x xs => rw [h] at hf; simp at hf
      have hb : u.b.rest = [] := by
        cases h : u.b.rest with
        | nil => rfl
        | cons x xs => rw [h] at hf; simp at hf
      rw [ha, hb]
      simp [UnionMatcher.runAux, mergeU]
  | succ fuel ih =>
      intro u hf hA hB
      rw [UnionMatcher.remaining_eq] at hf
      cases ha : u.a.rest with
      | nil =>
          cases hb : u.b.rest with
          | nil =>
              have : u.is_active = false := by
                simp [UnionMatcher.is_active, ListMatcher.is_active_false_iff, ha, hb]
              simp [UnionMatcher.runAux, this, ha, hb, mergeU]
          | cons y ys =>
              have haa : u.a.is_active = false := (ListMatcher.is_active_false_iff _).2 ha
              have hba : u.b.is_active = true := (ListMatcher.is_active_true_iff _).2 (by simp [hb])
              have hact : u.is_active = true := by
                simp [UnionMatcher.is_active, hba]
              have hid : u.id = some y := by
                simp [UnionMatcher.id, haa, ListMatcher.id_eq_head?_rest, hb]
              have hnext : u.next = .ok { u with b := u.b.next } := by
                simp [UnionMatcher.next, haa, hba]
              have hrest : ({ u with b := u.b.next } : UnionMatcher).b.rest = ys := by
                simp [ListMatcher.rest_next, hb]
              rw [UnionMatcher.runAux, if_pos hact, hid, hnext]
              show y :: UnionMatcher.runAux fuel { u with b := u.b.next } =
                mergeU [] (y :: ys)
              have := ih { u with b := u.b.next }
                (by rw [UnionMatcher.remaining_eq]; rw [ha, hb] at hf
                    simp only [ha, hrest]; simp at hf ⊢; omega)
                (by simp only [ha] at hA ⊢; exact hA)
                (by rw [hrest]; rw [hb] at hB; exact hB.of_cons)
              rw [this]
              simp [ha, hrest, mergeU]
      | cons x xs =>
          have haa : u.a.is_active = true := (ListMatcher.is_active_true_iff _).2 (by simp [ha])
          have hida : u.a.id = some x := by
            simp [ListMatcher.id_eq_head?_rest, ha]
          have hact : u.is_active = true := by
            simp [UnionMatcher.is_active, haa]
          cases hb : u.b.rest with
          | nil =>
              have hbb : u.b.is_active = false := (ListMatcher.is_active_false_iff _).2 hb
              have hid : u.id = some x := by
                simp [UnionMatcher.id, haa, hbb, hida]
              have hnext : u.next = .ok { u with a := u.a.next } := by
                simp [UnionMatcher.next, haa, hbb]
              have hrest : ({ u with a := u.a.next } : UnionMatcher).a.rest = xs := by
                simp [ListMatcher.rest_next, ha]
              rw [UnionMatcher.runAux, if_pos hact, hid, hnext]
              show x :: UnionMatcher.runAux fuel { u with a := u.a.next } =
                mergeU (x :: xs) []
              have := ih { u with a := u.a.next }
                (by rw [UnionMatcher.remaining_eq]; rw [ha, hb] at hf
                    simp only [hb, hrest]; simp at hf ⊢; omega)
                (by rw [hrest]; rw [ha] at hA; exact hA.of_cons)
                (by simp only [hb] at hB ⊢; exact hB)
              rw [this]
              cases hxs : xs with
              | nil => simp [hb, hrest, hxs, mergeU]
              | cons z zs => simp [hb, hrest, hxs, mergeU]
          | cons y ys =>
              have hbb : u.b.is_active = true := (ListMatcher.is_active_true_iff _).2 (by simp [hb])
              have hidb : u.b.id = some y := by
                simp [ListMatcher.id_eq_head?_rest, hb]
              have hid : u.id = some (min x y) := by
                simp [UnionMatcher.id, haa, hbb, hida, hidb]
              have hnext : u.next =
                  .ok ⟨if x ≤ y then u.a.next else u.a, if y ≤ x then u.b.next else u.b⟩ := by
                simp [UnionMatcher.next, haa, hbb, hida, hidb]
              rw [UnionMatcher.runAux, if_pos hact, hid, hnext]
              show min x y ::
                  UnionMatcher.runAux fuel
                    ⟨if x ≤ y then u.a.next else u.a, if y ≤ x then u.b.next else u.b⟩ =
                mergeU (x :: xs) (y :: ys)
              rw [ha, hb] at hf
              simp only [List.length_cons] at hf
              rcases lt_trichotomy x y with hxy | hxy | hxy
              · rw [if_pos (le_of_lt hxy), if_neg (by omega)]
                have hrest : (⟨u.a.next, u.b⟩ : UnionMatcher).a.rest = xs := by
                  simp [ListMatcher.rest_next, ha]
                have := ih ⟨u.a.next, u.b⟩
                  (by rw [UnionMatcher.remaining_eq]; simp only [hrest]
                      simp only [hb]; simp; omega)
                  (by rw [hrest]; rw [ha] at hA; exact hA.of_cons)
                  hB
                rw [this]
                simp [hrest, hb, mergeU, hxy, min_eq_left (le_of_lt hxy)]
              · subst hxy
                rw [if_pos le_rfl, if_pos le_rfl]
                have hrest1 : (⟨u.a.next, u.b.next⟩ : UnionMatcher).a.rest = xs := by
                  simp [ListMatcher.rest_next, ha]
                have hrest2 : (⟨u.a.next, u.b.next⟩ : UnionMatcher).b.rest = ys := by
                  simp [ListMatcher.rest_next, hb]
                have := ih ⟨u.a.next, u.b.next⟩
                  (by rw [UnionMatcher.remaining_eq]; simp only [hrest1, hrest2]; omega)
                  (by rw [hrest1]; rw [ha] at hA; exact hA.of_cons)
                  (by rw [hrest2]; rw [hb] at hB; exact hB.of_cons)
                rw [this]
                simp [hrest1, hrest2, mergeU]
              · have hxy' : ¬ x < y := by omega
                rw [if_neg (by omega), if_pos (le_of_lt hxy)]
                have hrest : (⟨u.a, u.b.next⟩ : UnionMatcher).b.rest = ys := by
                  simp [ListMatcher.rest_next, hb]
                have := ih ⟨u.a, u.b.next⟩
                  (by rw [UnionMatcher.remaining_eq]; simp only [hrest]
                      simp only [ha]; simp; omega)
                  hA
                  (by rw [hrest]; rw [hb] at hB; exact hB.of_cons)
                rw [this]
                simp [hrest, ha, mergeU, hxy, hxy', min_eq_right (le_of_lt hxy)]

theorem ListMatcher.is_active_of_id_some {m : ListMatcher} {x : Nat}
    (h : m.id = some x) : m.is_active = true := by
  rw [ListMatcher.id_eq_head?_rest] at h
  rw [ListMatcher.is_active_true_iff]
  intro hn
  rw [hn] at h
  simp at h

/-- Claim C1: for all strictly ascending id lists `A` and `B`, traversing a
fresh `UnionMatcher` over `ListMatcher(A)` and `ListMatcher(B)` by
repeatedly reading `id()` and calling `next()` until `is_active()` is
false visits exactly the ids of `sorted(set(A) ∪ set(B))`, in that order
(stated as: the visited list is strictly ascending and contains an id iff
it is in `A` or in `B`); and each `next()` advances every child whose id
equals the current minimum. -/
theorem unionMatcher_traversal_law (A B : List Nat)
    (hA : List.Chain' (· < ·) A) (hB : List.Chain' (· < ·) B) :
    (UnionMatcher.run ⟨ListMatcher.fresh A, ListMatcher.fresh B⟩).Chain' (· < ·)
    ∧ (∀ x, x ∈ UnionMatcher.run ⟨ListMatcher.fresh A, ListMatcher.fresh B⟩ ↔
        x ∈ A ∨ x ∈ B)
    ∧ (∀ (u : UnionMatcher) (x y : Nat), u.a.id = some x → u.b.id = some y →
        u.next = .ok ⟨if x ≤ y then u.a.next else u.a,
                      if y ≤ x then u.b.next else u.b⟩) := by
  have hra : (ListMatcher.fresh A).rest = A := by simp [ListMatcher.fresh, ListMatcher.rest]
  have hrb : (ListMatcher.fresh B).rest = B := by simp [ListMatcher.fresh, ListMatcher.rest]
  have hrun : UnionMatcher.run ⟨ListMatcher.fresh A, ListMatcher.fresh B⟩ = mergeU A B := by
    rw [UnionMatcher.run]
    rw [UnionMatcher.runAux_eq_mergeU _ _ le_rfl]
    · rw [hra, hrb]
    · rw [hra]; exact List.chain'_iff_pairwise.1 hA
    · rw [hrb]; exact List.chain'_iff_pairwise.1 hB
  refine ⟨?_, ?_, ?_⟩
  · rw [hrun]
    exact List.chain'_iff_pairwise.2
      (pairwise_mergeU A B (List.chain'_iff_pairwise.1 hA) (List.chain'_iff_pairwise.1 hB))
  · intro x
    rw [hrun]
    exact mem_mergeU x A B
  · intro u x y hx hy
    have hax := ListMatcher.is_active_of_id_some hx
    have hby := ListMatcher.is_active_of_id_some hy
    simp [UnionMatcher.next, hax, hby, hx, hy]

/-- Witness for C1 at `A = [1, 4, 10, 20, 90]`, `B = [0, 4, 20]` (the
inputs of the repository's own `test_simple_union`). -/
theorem unionMatcher_traversal_law_witness :
    List.Chain' (· < ·) [1, 4, 10, 20, 90] ∧ List.Chain' (· < ·) [0, 4, 20]
    ∧ (UnionMatcher.run ⟨ListMatcher.fresh [1, 4, 10, 20, 90],
        ListMatcher.fresh [0, 4, 20]⟩).Chain' (· < ·)
    ∧ (4 ∈ UnionMatcher.run ⟨ListMatcher.fresh [1, 4, 10, 20, 90],
        ListMatcher.fresh [0, 4, 20]⟩ ↔ 4 ∈ [1, 4, 10, 20, 90] ∨ 4 ∈ [0, 4, 20]) :=
  ⟨by simp, by simp,
   (unionMatcher_traversal_law [1, 4, 10, 20, 90] [0, 4, 20] (by simp) (by simp)).1,
   (unionMatcher_traversal_law [1, 4, 10, 20, 90] [0, 4, 20] (by simp) (by simp)).2.1 4⟩

/-- `AndNotMatcher(a, b)` over two `ListMatcher` children (matching.py
line 885): postings of `a` that are not in `b`. -/
structure AndNotMatcher where
  a : ListMatcher
  b : ListMatcher
deriving DecidableEq

/-- Loop of `AndNotMatcher._find_next` (matching.py lines 910-914):
`while neg.is_active() and pos_id == neg.id(): pos.next(); pos_id =
pos.id(); neg.skip_to(pos_id)`.  Reading `pos.id()` after `pos.next()`
has exhausted `pos` raises IndexError (`.error .index`).  One unit of
fuel is consumed per posting of `pos`, so the wrapper's bound cannot run
out. -/
def AndNotMatcher.findAux :
    Nat → Nat → ListMatcher → ListMatcher → Except Err (ListMatcher × ListMatcher)
  | 0, _, _, _ => .error .fuel
  | fuel + 1, posId, pos, neg =>
    if neg.is_active && (neg.id == some posId) then
      let pos' := pos.next
      match pos'.id with
      | none => .error .index
      | some posId' => AndNotMatcher.findAux fuel posId' pos' (neg.skip_to posId')
    else .ok (pos, neg)

/-- `AndNotMatcher._find_next` (matching.py lines 900-916): returns at once
when `b` is inactive; otherwise reads `a.id()` (IndexError when `a` is
exhausted), re-aligns `b` forward, and runs the loop above. -/
def AndNotMatcher.findNext (s : AndNotMatcher) : Except Err AndNotMatcher :=
  if !s.b.is_active then .ok s
  else
    match s.a.id with
    | none => .error .index
    | some posId =>
      let b1 :=
        match s.b.id with
        | some negId => if negId < posId then s.b.skip_to posId else s.b
        | none => s.b
      (AndNotMatcher.findAux (s.a.ids.length + 1) posId s.a b1).map
        (fun p => ⟨p.1, p.2⟩)

/-- `AndNotMatcher.__init__` (matching.py lines 890-895): `_find_next` is
invoked only when both children are active AND their ids differ — in
particular not when the ids coincide. -/
def AndNotMatcher.init (a b : ListMatcher) : Except Err AndNotMatcher :=
  if a.is_active && b.is_active && (a.id != b.id) then
    AndNotMatcher.findNext ⟨a, b⟩
  else .ok ⟨a, b⟩

/-- `AndNotMatcher.is_active`: `self.a.is_active()`. -/
def AndNotMatcher.is_active (s : AndNotMatcher) : Bool := s.a.is_active

/-- `AndNotMatcher.id`: `self.a.id()`. -/
def AndNotMatcher.id (s : AndNotMatcher) : Option Nat := s.a.id

/-- `AndNotMatcher.next` (matching.py lines 940-946): `ReadTooFar` when `a`
is inactive; otherwise advance `a` and, when `b` is active, `_find_next`. -/
def AndNotMatcher.next (s : AndNotMatcher) : Except Err AndNotMatcher :=
  if !s.a.is_active then .error .readTooFar
  else
    let a' := s.a.next
    if s.b.is_active then AndNotMatcher.findNext ⟨a', s.b⟩
    else .ok ⟨a', s.b⟩

/-- `AndNotMatcher.skip_to` (matching.py lines 948-955): `ReadTooFar` when
`a` is inactive; no-op when the target is below the current id; otherwise
skip both children and `_find_next`. -/
def AndNotMatcher.skip_to (t : Nat) (s : AndNotMatcher) : Except Err AndNotMatcher :=
  if !s.a.is_active then .error .readTooFar
  else
    match s.a.id with
    | none => .error .index
    | some aId =>
      if t < aId then .ok s
      else
        let a' := s.a.skip_to t
        if s.b.is_active then AndNotMatcher.findNext ⟨a', s.b.skip_to t⟩
        else .ok ⟨a', s.b⟩

/-- Claim C2, settled against the code: the claimed traversal law fails.
For `A = [5]`, `B = [5]` the constructor skips `_find_next` because the
two ids are equal, so the fresh matcher is active at id 5 even though
`5 ∈ B` and `sorted(set(A) − set(B)) = []`; the subsequent `next()`
exhausts `a` and then `_find_next` reads `a.id()` from the now-inactive
child, raising IndexError — contradicting both parts of the claim. -/
theorem andNotMatcher_equal_start_bug :
    AndNotMatcher.init (ListMatcher.fresh [5]) (ListMatcher.fresh [5]) =
      .ok ⟨ListMatcher.fresh [5], ListMatcher.fresh [5]⟩
    ∧ AndNotMatcher.is_active ⟨ListMatcher.fresh [5], ListMatcher.fresh [5]⟩ = true
    ∧ AndNotMatcher.id ⟨ListMatcher.fresh [5], ListMatcher.fresh [5]⟩ = some 5
    ∧ AndNotMatcher.next ⟨ListMatcher.fresh [5], ListMatcher.fresh [5]⟩ =
        .error .index := by
  exact ⟨rfl, by decide, by decide, rfl⟩

/-- `InverseMatcher(child, limit, missing=None, weight=1.0)` (matching.py
line 964): emits the docids in `[0, limit)` not produced by the wrapped
matcher.  `curId` is `self._id`. -/
structure InverseMatcher where
  child : ListMatcher
  limit : Nat
  missing : Nat → Bool
  curId : Nat

/-- Loop of `InverseMatcher._find_next` (matching.py line 997):
`while self._id < self.limit and ((child.is_active() and self._id ==
child.id()) or missing(id)): ...`.  The second disjunct applies `missing`
to Python's builtin function `id`, not to the current docid; for the
integer predicates quantified over by the claims it therefore never
holds, and is modelled as the constant false (omitted).  The fuel
`limit - curId` is exact: each iteration increments `curId`, and the
guard requires `curId < limit`. -/
def InverseMatcher.findAux : Nat → InverseMatcher → InverseMatcher
  | 0, s => s
  | fuel + 1, s =>
    if s.curId < s.limit && s.child.is_active && (s.child.id == some s.curId) then
      InverseMatcher.findAux fuel
        { s with curId := s.curId + 1,
                 child := if s.child.is_active then s.child.next else s.child }
    else s

/-- `InverseMatcher._find_next` (matching.py lines 987-1000): early return
when the child is inactive and `missing(self._id)` is false (this guard
does use `self._id`); otherwise re-align the child forward and run the
loop. -/
def InverseMatcher.findNext (s : InverseMatcher) : InverseMatcher :=
  if !s.child.is_active && !s.missing s.curId then s
  else
    let c :=
      match s.child.id with
      | some x => if x < s.curId then s.child.skip_to s.curId else s.child
      | none => s.child
    InverseMatcher.findAux (s.limit - s.curId) { s with child := c }

/-- `InverseMatcher.__init__`: `self._id = 0` then `_find_next`. -/
def InverseMatcher.init (child : ListMatcher) (limit : Nat)
    (missing : Nat → Bool) : InverseMatcher :=
  InverseMatcher.findNext ⟨child, limit, missing, 0⟩

/-- `InverseMatcher.is_active`: `self._id < self.limit`. -/
def InverseMatcher.is_active (s : InverseMatcher) : Bool :=
  decide (s.curId < s.limit)

/-- `InverseMatcher.id`: `self._id`. -/
def InverseMatcher.id (s : InverseMatcher) : Nat := s.curId

/-- `InverseMatcher.next` (matching.py lines 1011-1014): `ReadTooFar` when
`self._id >= self.limit`; otherwise increment and `_find_next`. -/
def InverseMatcher.next (s : InverseMatcher) : Except Err InverseMatcher :=
  if s.limit ≤ s.curId then .error .readTooFar
  else .ok (InverseMatcher.findNext { s with curId := s.curId + 1 })

/-- `InverseMatcher.skip_to` (matching.py lines 1016-1020): `ReadTooFar`
when exhausted; no-op when the target is below the current id; otherwise
jump to the target and `_find_next`. -/
def InverseMatcher.skip_to (t : Nat) (s : InverseMatcher) : Except Err InverseMatcher :=
  if s.limit ≤ s.curId then .error .readTooFar
  else if t < s.curId then .ok s
  else .ok (InverseMatcher.findNext { s with curId := t })

/-- The id()/next() traversal of an inverse matcher; at most `limit` ids
can be emitted, so `limit` units of fuel always suffice. -/
def InverseMatcher.runAux : Nat → InverseMatcher → List Nat
  | 0, _ => []
  | fuel + 1, s =>
    if s.is_active then
      s.curId ::
        (match s.next with
         | .ok s' => InverseMatcher.runAux fuel s'
         | .error _ => [])
    else []

/-- Traversal of an inverse matcher. -/
def InverseMatcher.run (s : InverseMatcher) : List Nat :=
  InverseMatcher.runAux s.limit s

/-- Claim C4, settled against the code: for the child `ListMatcher([])`,
`limit = 3` and the missing predicate `{1}`, the traversal emits
`[0, 1, 2]`, including the missing docid 1, because the skip loop of
`_find_next` tests `missing(id)` against Python's builtin `id` function
instead of the current docid.  The claim (and the spec) require
`[0, 2]`. -/
theorem inverseMatcher_missing_bug :
    InverseMatcher.run
        (InverseMatcher.init (ListMatcher.fresh []) 3 (fun n => n == 1)) = [0, 1, 2]
    ∧ (fun n => n == 1) 1 = true
    ∧ ([0, 1, 2] : List Nat) ≠ [0, 2] := by
  exact ⟨rfl, rfl, by decide⟩

/-- `MultiMatcher(matchers, idoffsets, current=0)` (matching.py line 426):
serializes a list of sub-matchers, adding a per-child docnum offset. -/
structure MultiMatcher where
  matchers : List ListMatcher
  offsets : List Nat
  current : Nat
deriving DecidableEq

/-- `MultiMatcher._next_matcher` (matching.py lines 444-447): advance
`current` past inactive children.  The fuel `length - current` is exact. -/
def MultiMatcher.nextMatcherAux : Nat → MultiMatcher → MultiMatcher
  | 0, s => s
  | fuel + 1, s =>
    match s.matchers[s.current]? with
    | some m =>
        if !m.is_active then
          MultiMatcher.nextMatcherAux fuel { s with current := s.current + 1 }
        else s
    | none => s

/-- `MultiMatcher._next_matcher`. -/
def MultiMatcher.nextMatcher (s : MultiMatcher) : MultiMatcher :=
  MultiMatcher.nextMatcherAux (s.matchers.length - s.current) s

/-- `MultiMatcher.__init__`: stores the lists and calls `_next_matcher`. -/
def MultiMatcher.init (matchers : List ListMatcher) (offsets : List Nat)
    (current : Nat) : MultiMatcher :=
  MultiMatcher.nextMatcher ⟨matchers, offsets, current⟩

/-- `MultiMatcher.is_active`: `self.current < len(self.matchers)`. -/
def MultiMatcher.is_active (s : MultiMatcher) : Bool :=
  decide (s.current < s.matchers.length)

/-- `MultiMatcher.id` (matching.py lines 467-469):
`self.matchers[self.current].id() + self.offsets[self.current]`; `none`
models the IndexError when the current child is exhausted (or an index is
out of range). -/
def MultiMatcher.id (s : MultiMatcher) : Option Nat := do
  let m ← s.matchers[s.current]?
  let x ← m.id
  let o ← s.offsets[s.current]?
  pure (x + o)

/-- `MultiMatcher.next` (matching.py lines 480-485): `ReadTooFar` when
inactive; advance the current child and, if it became inactive,
`_next_matcher`. -/
def MultiMatcher.next (s : MultiMatcher) : Except Err MultiMatcher :=
  if !s.is_active then .error .readTooFar
  else
    match s.matchers[s.current]? with
    | none => .error .index
    | some m =>
        let m' := m.next
        let s' := { s with matchers := s.matchers.set s.current m' }
        if !m'.is_active then .ok s'.nextMatcher else .ok s'

/-- Loop of `MultiMatcher.skip_to` (matching.py lines 495-502):
`while self.current < len(matchers) and id > self.id(): mr.skip_to(id -
offsets[current]); if mr.is_active(): break; current += 1`.  Evaluating
`self.id()` in the guard raises IndexError when the child at `current` is
exhausted; the error leaves the mutations made so far in place, so the
result carries both the final state and the optional error.  Each
iteration either breaks or increments `current`, so `length - current + 1`
units of fuel never run out. -/
def MultiMatcher.skipAux : Nat → Nat → MultiMatcher → MultiMatcher × Option Err
  | 0, _, s => (s, some .fuel)
  | fuel + 1, t, s =>
    if s.current < s.matchers.length then
      match MultiMatcher.id s with
      | none => (s, some .index)
      | some cid =>
        if cid < t then
          match s.matchers[s.current]?, s.offsets[s.current]? with
          | some mr, some off =>
              let mr' := mr.skip_to (t - off)
              let s' := { s with matchers := s.matchers.set s.current mr' }
              if mr'.is_active then (s', none)
              else MultiMatcher.skipAux fuel t { s' with current := s'.current + 1 }
          | _, _ => (s, some .index)
        else (s, none)
    else (s, none)

/-- `MultiMatcher.skip_to` (matching.py lines 487-504): `ReadTooFar` when
inactive, no-op when the target does not exceed the current id,
otherwise the loop above. -/
def MultiMatcher.skip_to (t : Nat) (s : MultiMatcher) : MultiMatcher × Option Err :=
  if !s.is_active then (s, some .readTooFar)
  else
    match MultiMatcher.id s with
    | none => (s, some .index)
    | some cid =>
      if t ≤ cid then (s, none)
      else MultiMatcher.skipAux (s.matchers.length - s.current + 1) t s

/-- Claim C3, settled against the code: `skip_to` on a `MultiMatcher`
breaks the skip contract.  For children `ListMatcher([0])` and
`ListMatcher([])` with offsets `[0, 1]`, `skip_to(5)` exhausts the first
child, advances `current` to the empty second child, and then the loop
guard evaluates `self.id()` on it, raising IndexError; the matcher is
left with `is_active()` true but no valid `id()` — neither "active with
id() ≥ t" nor "exhausted" as the claim requires. -/
theorem multiMatcher_skip_to_inactive_child_bug :
    MultiMatcher.init [ListMatcher.fresh [0], ListMatcher.fresh []] [0, 1] 0 =
      ⟨[ListMatcher.fresh [0], ListMatcher.fresh []], [0, 1], 0⟩
    ∧ MultiMatcher.is_active
        ⟨[ListMatcher.fresh [0], ListMatcher.fresh []], [0, 1], 0⟩ = true
    ∧ MultiMatcher.id
        ⟨[ListMatcher.fresh [0], ListMatcher.fresh []], [0, 1], 0⟩ = some 0
    ∧ (MultiMatcher.skip_to 5
        ⟨[ListMatcher.fresh [0], ListMatcher.fresh []], [0, 1], 0⟩).2 = some .index
    ∧ MultiMatcher.is_active
        (MultiMatcher.skip_to 5
          ⟨[ListMatcher.fresh [0], ListMatcher.fresh []], [0, 1], 0⟩).1 = true
    ∧ MultiMatcher.id
        (MultiMatcher.skip_to 5
          ⟨[ListMatcher.fresh [0], ListMatcher.fresh []], [0, 1], 0⟩).1 = none := by
  exact ⟨rfl, by decide, by decide, by decide, by decide, by decide⟩

/-- `IntersectionMatcher(a, b)` over two `ListMatcher` children
(matching.py line 789). -/
structure IntersectionMatcher where
  a : ListMatcher
  b : ListMatcher
deriving DecidableEq

/-- Loop of `IntersectionMatcher._find_next` (matching.py lines 823-833):
while both children are active and their (cached) ids differ, `skip_to`
the lagging child towards the other and return early if it dies.  Each
iteration consumes at least one posting of one child, so
`len(a) + len(b) + 1` units of fuel cannot run out. -/
def IntersectionMatcher.findAux :
    Nat → Nat → Nat → ListMatcher → ListMatcher → ListMatcher × ListMatcher
  | 0, _, _, a, b => (a, b)
  | fuel + 1, aId, bId, a, b =>
    if a.is_active && b.is_active && (aId != bId) then
      if aId < bId then
        let a' := a.skip_to bId
        match a'.id with
        | none => (a', b)
        | some aId' => IntersectionMatcher.findAux fuel aId' bId a' b
      else
        let b' := b.skip_to aId
        match b'.id with
        | none => (a, b')
        | some bId' => IntersectionMatcher.findAux fuel aId bId' a b'
    else (a, b)

/-- `IntersectionMatcher._find_next` (matching.py lines 815-834): reads
both ids and runs the loop.  Every caller guards with both children
active, so the fallback (source: an unchecked `a.id()` read) is
unreachable and returns the state unchanged.  The source also asserts
`a_id != b_id` on entry; with equal ids the loop guard is false and this
model returns the state unchanged, which is what every guarded call site
observes. -/
def IntersectionMatcher.findNext (s : IntersectionMatcher) : IntersectionMatcher :=
  match s.a.id, s.b.id with
  | some aId, some bId =>
      let p := IntersectionMatcher.findAux (s.a.ids.length + s.b.ids.length + 1)
        aId bId s.a s.b
      ⟨p.1, p.2⟩
  | _, _ => s

/-- `IntersectionMatcher.__init__` (matching.py lines 793-798):
`_find_next` only when both children are active with different ids. -/
def IntersectionMatcher.init (a b : ListMatcher) : IntersectionMatcher :=
  if a.is_active && b.is_active && (a.id != b.id) then
    IntersectionMatcher.findNext ⟨a, b⟩
  else ⟨a, b⟩

/-- `IntersectionMatcher.is_active`: both children active. -/
def IntersectionMatcher.is_active (s : IntersectionMatcher) : Bool :=
  s.a.is_active && s.b.is_active

/-- `IntersectionMatcher.id`: `self.a.id()`. -/
def IntersectionMatcher.id (s : IntersectionMatcher) : Option Nat := s.a.id

/-- `IntersectionMatcher.next` (matching.py lines 871-879): `ReadTooFar`
when inactive; advance `a` and re-align when still active. -/
def IntersectionMatcher.next (s : IntersectionMatcher) :
    Except Err IntersectionMatcher :=
  if !s.is_active then .error .readTooFar
  else
    let s' : IntersectionMatcher := ⟨s.a.next, s.b⟩
    if s'.is_active then .ok (IntersectionMatcher.findNext s') else .ok s'

/-- `IntersectionMatcher.skip_to` (matching.py lines 842-850): `ReadTooFar`
when inactive; skip both children, then re-align when still active with
differing ids. -/
def IntersectionMatcher.skip_to (t : Nat) (s : IntersectionMatcher) :
    Except Err IntersectionMatcher :=
  if !s.is_active then .error .readTooFar
  else
    let s' : IntersectionMatcher := ⟨s.a.skip_to t, s.b.skip_to t⟩
    if s'.is_active then
      .ok (if s'.a.id != s'.b.id then IntersectionMatcher.findNext s' else s')
    else .ok s'

/-- `AndMaybeMatcher(a, b)` (matching.py line 1064): traversal is driven
by `a`; `b` is pulled along. -/
structure AndMaybeMatcher where
  a : ListMatcher
  b : ListMatcher
deriving DecidableEq

/-- `AndMaybeMatcher.__init__` (matching.py lines 1069-1074): when both
children are active with differing ids, `b.skip_to(a.id())`. -/
def AndMaybeMatcher.init (a b : ListMatcher) : AndMaybeMatcher :=
  if a.is_active && b.is_active && (a.id != b.id) then
    match a.id with
    | some x => ⟨a, b.skip_to x⟩
    | none => ⟨a, b⟩
  else ⟨a, b⟩

/-- `AndMaybeMatcher.is_active`: `self.a.is_active()`. -/
def AndMaybeMatcher.is_active (s : AndMaybeMatcher) : Bool := s.a.is_active

/-- `AndMaybeMatcher.id`: `self.a.id()`. -/
def AndMaybeMatcher.id (s : AndMaybeMatcher) : Option Nat := s.a.id

/-- `AndMaybeMatcher.next` (matching.py lines 1082-1089): `ReadTooFar` when
`a` is inactive; advance `a`, then pull `b` forward when both active. -/
def AndMaybeMatcher.next (s : AndMaybeMatcher) : Except Err AndMaybeMatcher :=
  if !s.a.is_active then .error .readTooFar
  else
    let a' := s.a.next
    if a'.is_active && s.b.is_active then
      match a'.id with
      | some x => .ok ⟨a', s.b.skip_to x⟩
      | none => .ok ⟨a', s.b⟩
    else .ok ⟨a', s.b⟩

/-- `AndMaybeMatcher.skip_to` (matching.py lines 1091-1098): `ReadTooFar`
when `a` is inactive; skip `a`, then skip `b` when both active. -/
def AndMaybeMatcher.skip_to (t : Nat) (s : AndMaybeMatcher) :
    Except Err AndMaybeMatcher :=
  if !s.a.is_active then .error .readTooFar
  else
    let a' := s.a.skip_to t
    if a'.is_active && s.b.is_active then .ok ⟨a', s.b.skip_to t⟩
    else .ok ⟨a', s.b⟩

/-- `ExcludeMatcher(child, excluded, boost=1.0)` (matching.py line 522). -/
structure ExcludeMatcher where
  child : ListMatcher
  excluded : Finset Nat
  boost : ℚ
deriving DecidableEq

/-- Loop of `ExcludeMatcher._find_next` (matching.py lines 540-546):
`while child.is_active() and child.id() in excluded: child.next()`.  The
fuel (postings left) is exact. -/
def ExcludeMatcher.findAux : Nat → Finset Nat → ListMatcher → ListMatcher
  | 0, _, c => c
  | fuel + 1, ex, c =>
    match c.id with
    | some x => if x ∈ ex then ExcludeMatcher.findAux fuel ex c.next else c
    | none => c

/-- `ExcludeMatcher._find_next`. -/
def ExcludeMatcher.findNext (e : ExcludeMatcher) : ExcludeMatcher :=
  { e with child :=
      ExcludeMatcher.findAux (e.child.ids.length - e.child.i) e.excluded e.child }

/-- `ExcludeMatcher.__init__`: stores the set and calls `_find_next`. -/
def ExcludeMatcher.init (child : ListMatcher) (excluded : Finset Nat)
    (boost : ℚ) : ExcludeMatcher :=
  ExcludeMatcher.findNext ⟨child, excluded, boost⟩

/-- `ExcludeMatcher.is_active` (inherited from `WrappingMatcher`). -/
def ExcludeMatcher.is_active (e : ExcludeMatcher) : Bool := e.child.is_active

/-- `ExcludeMatcher.next` (matching.py lines 548-550): no activity check —
the child is advanced and the exclusion loop rerun. -/
def ExcludeMatcher.next (e : ExcludeMatcher) : ExcludeMatcher :=
  ExcludeMatcher.findNext { e with child := e.child.next }

/-- `ExcludeMatcher.skip_to` (matching.py lines 552-554): no activity
check. -/
def ExcludeMatcher.skip_to (t : Nat) (e : ExcludeMatcher) : ExcludeMatcher :=
  ExcludeMatcher.findNext { e with child := e.child.skip_to t }

/-- Counterexample to claim C5: the exhausted leaf `ListMatcher([0])` at
position 1 does not raise `ReadTooFar` on `next()` — it silently
increments its cursor to 2 and stays exhausted. -/
theorem listMatcher_next_exhausted_counterexample :
    ListMatcher.is_active ⟨[0], 1, 1⟩ = false
    ∧ ListMatcher.next ⟨[0], 1, 1⟩ = ⟨[0], 2, 1⟩
    ∧ ListMatcher.is_active ⟨[0], 2, 1⟩ = false :=
  ⟨by decide, rfl, by decide⟩

/-- Claim C5 amended: the combinators whose movement methods guard on
activity (`UnionMatcher.next`, `IntersectionMatcher`, `AndNotMatcher`,
`AndMaybeMatcher`, `MultiMatcher`, `InverseMatcher`) raise `ReadTooFar`
when called exhausted, but the leaf `ListMatcher.next` silently
increments its cursor, the inherited `Matcher.skip_to` returns normally
without moving, `UnionMatcher.skip_to` returns normally with both
children untouched, and `ExcludeMatcher.next` delegates to the exhausted
child without raising. -/
theorem movement_exhausted_behaviour :
    (∀ m : ListMatcher, m.is_active = false →
      m.next = { m with i := m.i + 1 })
    ∧ (∀ (t : Nat) (m : ListMatcher), m.is_active = false →
      m.skip_to t = m)
    ∧ (∀ u : UnionMatcher, u.is_active = false →
      u.next = .error .readTooFar)
    ∧ (∀ (t : Nat) (u : UnionMatcher), u.is_active = false →
      u.skip_to t = u)
    ∧ (∀ s : IntersectionMatcher, s.is_active = false →
      s.next = .error .readTooFar ∧ ∀ t, s.skip_to t = .error .readTooFar)
    ∧ (∀ s : AndNotMatcher, s.is_active = false →
      s.next = .error .readTooFar ∧ ∀ t, s.skip_to t = .error .readTooFar)
    ∧ (∀ s : AndMaybeMatcher, s.is_active = false →
      s.next = .error .readTooFar ∧ ∀ t, s.skip_to t = .error .readTooFar)
    ∧ (∀ s : MultiMatcher, s.is_active = false →
      s.next = .error .readTooFar ∧ ∀ t, s.skip_to t = (s, some .readTooFar))
    ∧ (∀ s : InverseMatcher, s.is_active = false →
      s.next = .error .readTooFar ∧ ∀ t, s.skip_to t = .error .readTooFar)
    ∧ (∀ e : ExcludeMatcher, e.is_active = false →
      e.next = { e with child := e.child.next }) := by
  refine ⟨?_, ?_, ?_, ?_, ?_, ?_, ?_, ?_, ?_, ?_⟩
  · intro m _
    rfl
  · intro t m h
    have h0 : m.ids.length - m.i = 0 := by
      simp [ListMatcher.is_active] at h
      omega
    rw [ListMatcher.skip_to, h0]
    rfl
  · intro u h
    simp [UnionMatcher.is_active] at h
    simp [UnionMatcher.next, h.1, h.2]
  · intro t u h
    simp [UnionMatcher.is_active] at h
    simp [UnionMatcher.skip_to, h.1, h.2]
  · intro s h
    exact ⟨by simp [IntersectionMatcher.next, h],
           fun t => by simp [IntersectionMatcher.skip_to, h]⟩
  · intro s h
    rw [AndNotMatcher.is_active] at h
    exact ⟨by simp [AndNotMatcher.next, h],
           fun t => by simp [AndNotMatcher.skip_to, h]⟩
  · intro s h
    rw [AndMaybeMatcher.is_active] at h
    exact ⟨by simp [AndMaybeMatcher.next, h],
           fun t => by simp [AndMaybeMatcher.skip_to, h]⟩
  · intro s h
    exact ⟨by simp [MultiMatcher.next, h],
           fun t => by simp [MultiMatcher.skip_to, h]⟩
  · intro s h
    have h0 : s.limit ≤ s.curId := by
      simp [InverseMatcher.is_active] at h
      omega
    exact ⟨by rw [InverseMatcher.next, if_pos h0],
           fun t => by rw [InverseMatcher.skip_to, if_pos h0]⟩
  · intro e h
    have h0 : e.child.ids.length - (e.child.i + 1) = 0 := by
      simp [ExcludeMatcher.is_active, ListMatcher.is_active] at h
      omega
    rw [ExcludeMatcher.next, ExcludeMatcher.findNext]
    simp [ListMatcher.next, h0, ExcludeMatcher.findAux]

/-- Witness for the amended C5 at concrete exhausted matchers. -/
theorem movement_exhausted_behaviour_witness :
    ListMatcher.next ⟨[3], 1, 1⟩ = ⟨[3], 2, 1⟩
    ∧ ListMatcher.skip_to 7 ⟨[3], 1, 1⟩ = ⟨[3], 1, 1⟩
    ∧ UnionMatcher.next ⟨⟨[], 0, 1⟩, ⟨[], 0, 1⟩⟩ = .error .readTooFar
    ∧ UnionMatcher.skip_to 7 ⟨⟨[], 0, 1⟩, ⟨[], 0, 1⟩⟩ = ⟨⟨[], 0, 1⟩, ⟨[], 0, 1⟩⟩
    ∧ IntersectionMatcher.next ⟨⟨[], 0, 1⟩, ⟨[2], 0, 1⟩⟩ = .error .readTooFar
    ∧ AndNotMatcher.skip_to 7 ⟨⟨[], 0, 1⟩, ⟨[2], 0, 1⟩⟩ = .error .readTooFar
    ∧ AndMaybeMatcher.next ⟨⟨[], 0, 1⟩, ⟨[2], 0, 1⟩⟩ = .error .readTooFar
    ∧ MultiMatcher.next ⟨[], [], 0⟩ = .error .readTooFar
    ∧ InverseMatcher.next ⟨⟨[], 0, 1⟩, 0, fun _ => false, 0⟩ = .error .readTooFar
    ∧ ExcludeMatcher.next ⟨⟨[3], 1, 1⟩, {3}, 1⟩ = ⟨⟨[3], 2, 1⟩, {3}, 1⟩ :=
  ⟨movement_exhausted_behaviour.1 ⟨[3], 1, 1⟩ (by decide),
   movement_exhausted_behaviour.2.1 7 ⟨[3], 1, 1⟩ (by decide),
   movement_exhausted_behaviour.2.2.1 _ (by decide),
   movement_exhausted_behaviour.2.2.2.1 7 _ (by decide),
   (movement_exhausted_behaviour.2.2.2.2.1 _ (by decide)).1,
   (movement_exhausted_behaviour.2.2.2.2.2.1 _ (by decide)).2 7,
   (movement_exhausted_behaviour.2.2.2.2.2.2.1 _ (by decide)).1,
   (movement_exhausted_behaviour.2.2.2.2.2.2.2.1 _ (by decide)).1,
   (movement_exhausted_behaviour.2.2.2.2.2.2.2.2.1 _ (by decide)).1,
   movement_exhausted_behaviour.2.2.2.2.2.2.2.2.2 _ (by decide)⟩

/-- `DisjunctionMaxMatcher(a, b, tiebreak=0.0)` (matching.py line 736):
subclass of `UnionMatcher` that stores a tiebreak factor. -/
structure DisjunctionMaxMatcher where
  a : ListMatcher
  b : ListMatcher
  tiebreak : ℚ
deriving DecidableEq

/-- `DisjunctionMaxMatcher.score` (matching.py lines 755-756):
`return max(self.a.score(), self.b.score())` — unconditionally; the
stored tiebreak factor and the children's positions are not consulted. -/
def DisjunctionMaxMatcher.score (s : DisjunctionMaxMatcher) : ℚ :=
  max s.a.score s.b.score

/-- Counterexample to claim C6: two children active at the same docid 3
with scores 2 and 3 and tiebreak 1/2.  The claim requires
`max + tiebreak * min = 3 + 1/2 * 2 = 4`; the code returns `max = 3`. -/
theorem disjunctionMax_score_counterexample :
    ListMatcher.is_active ⟨[3], 0, 2⟩ = true
    ∧ ListMatcher.is_active ⟨[3], 0, 3⟩ = true
    ∧ ListMatcher.id ⟨[3], 0, 2⟩ = ListMatcher.id ⟨[3], 0, 3⟩
    ∧ DisjunctionMaxMatcher.score ⟨⟨[3], 0, 2⟩, ⟨[3], 0, 3⟩, 1/2⟩ = 3
    ∧ (3 : ℚ) ≠ max (2 : ℚ) 3 + (1 / 2 : ℚ) * min (2 : ℚ) 3 := by
  refine ⟨by decide, by decide, rfl, ?_, by norm_num⟩
  norm_num [DisjunctionMaxMatcher.score, ListMatcher.score]

/-- Claim C6 amended: `DisjunctionMaxMatcher.score` always returns
`max(a.score(), b.score())`; the result does not depend on the tiebreak
factor or on the children's cursor positions (hence not on whether they
are aligned or active). -/
theorem disjunctionMax_score_amended (a b : ListMatcher) (t tt : ℚ) (i j : Nat) :
    DisjunctionMaxMatcher.score ⟨a, b, t⟩ = max a.score b.score
    ∧ DisjunctionMaxMatcher.score ⟨a, b, t⟩ = DisjunctionMaxMatcher.score ⟨a, b, tt⟩
    ∧ DisjunctionMaxMatcher.score ⟨{ a with i := i }, { b with i := j }, t⟩ =
        DisjunctionMaxMatcher.score ⟨a, b, t⟩ :=
  ⟨rfl, rfl, rfl⟩

/-- A tree of matchers covering the classes involved in claim C10:
`NullMatcher`, `ListMatcher`, `WrappingMatcher(child, boost)` and binary
`UnionMatcher`.  On this tree every `replace` implementation returns its
receiver itself exactly when the source method returns `self`, so Python
object identity (the source's `r is not self.child` test) coincides with
structural disequality. -/
inductive Matcher where
  | null : Matcher
  | list : ListMatcher → Matcher
  | wrap : Matcher → ℚ → Matcher
  | union : Matcher → Matcher → Matcher
deriving DecidableEq

/-- `is_active` across the tree: `NullMatcher` is never active, a wrapper
delegates to its child, a union is active when either child is. -/
def Matcher.is_active : Matcher → Bool
  | .null => false
  | .list m => m.is_active
  | .wrap c _ => c.is_active
  | .union a b => a.is_active || b.is_active

/-- `id` across the tree (used by `UnionMatcher.score`). -/
def Matcher.id : Matcher → Option Nat
  | .null => none
  | .list m => m.id
  | .wrap c _ => Matcher.id c
  | .union a b =>
    if !a.is_active then Matcher.id b
    else if !b.is_active then Matcher.id a
    else do
      let x ← Matcher.id a
      let y ← Matcher.id b
      pure (min x y)

/-- `score` across the tree.  `Matcher.score` on the base class raises
NotImplementedError (modelled as `none`); `ListMatcher.score` returns its
weight; `WrappingMatcher.score` is `child.score() * boost`
(matching.py lines 422-423); `UnionMatcher.score` (lines 694-708) takes
the leading child's score, or the sum at a coincident id. -/
def Matcher.score : Matcher → Option ℚ
  | .null => none
  | .list m => some m.score
  | .wrap c boost => (Matcher.score c).map (· * boost)
  | .union a b =>
    if !a.is_active then Matcher.score b
    else if !b.is_active then Matcher.score a
    else do
      let x ← a.id
      let y ← b.id
      if x < y then Matcher.score a
      else if y < x then Matcher.score b
      else do
        let sa ← Matcher.score a
        let sb ← Matcher.score b
        pure (sa + sb)

/-- `weight` across the tree: `WrappingMatcher.weight` is
`child.weight() * boost` (matching.py lines 419-420);
`AdditiveBiMatcher.weight` (lines 612-613) adds both children's weights
unconditionally. -/
def Matcher.weight : Matcher → Option ℚ
  | .null => none
  | .list m => some m.w
  | .wrap c boost => (Matcher.weight c).map (· * boost)
  | .union a b => do
      let x ← Matcher.weight a
      let y ← Matcher.weight b
      pure (x + y)

/-- `replace` across the tree.  `Matcher.replace` (base class, inherited
by `NullMatcher` and `ListMatcher`) returns `self`.
`WrappingMatcher.replace` (matching.py lines 377-381): replace the child;
a dead replacement collapses to `NullMatcher`; a replacement that is a
different object is rewrapped by `self.__class__(r)` — whose `boost`
argument is omitted and therefore defaults to 1.0; otherwise `self`.
`UnionMatcher.replace` (lines 623-637) collapses dead children. -/
def Matcher.replace : Matcher → Matcher
  | .null => .null
  | .list m => .list m
  | .wrap c boost =>
      let r := Matcher.replace c
      if !r.is_active then .null
      else if r ≠ c then .wrap r 1
      else .wrap c boost
  | .union a b =>
      let a' := Matcher.replace a
      let b' := Matcher.replace b
      if !a'.is_active && !b'.is_active then .null
      else if !a'.is_active then b'
      else if !b'.is_active then a'
      else if a' ≠ a ∨ b' ≠ b then .union a' b'
      else .union a b

/-- Claim C10: when the child of a `WrappingMatcher` with boost `b` has a
`replace()` result `r` that is active and is a different object from the
child, `WrappingMatcher.replace()` returns a new wrapper around `r` with
the default boost 1.0, so the replacement's `score()` and `weight()` are
the wrapped matcher's unscaled values rather than `b` times them. -/
theorem wrappingMatcher_replace_default_boost (c : Matcher) (boost : ℚ)
    (r : Matcher) (hr : Matcher.replace c = r) (hact : r.is_active = true)
    (hne : r ≠ c) :
    Matcher.replace (.wrap c boost) = .wrap r 1
    ∧ Matcher.score (.wrap r 1) = Matcher.score r
    ∧ Matcher.weight (.wrap r 1) = Matcher.weight r := by
  refine ⟨?_, ?_, ?_⟩
  · simp only [Matcher.replace, hr, hact]
    simp [hne]
  · rw [Matcher.score]
    cases Matcher.score r <;> simp
  · rw [Matcher.weight]
    cases Matcher.weight r <;> simp

/-- Witness for C10: a wrapper with boost 5 over a union whose first child
is dead; `replace` collapses the union to its live second child and
rewraps it with boost 1. -/
theorem wrappingMatcher_replace_default_boost_witness :
    Matcher.replace (.wrap (.union (.list ⟨[], 0, 1⟩) (.list ⟨[3], 0, 2⟩)) 5) =
      .wrap (.list ⟨[3], 0, 2⟩) 1
    ∧ Matcher.score (.wrap (.list ⟨[3], 0, 2⟩) 1) =
        Matcher.score (.list ⟨[3], 0, 2⟩)
    ∧ Matcher.weight (.wrap (.list ⟨[3], 0, 2⟩) 1) =
        Matcher.weight (.list ⟨[3], 0, 2⟩) :=
  ⟨(wrappingMatcher_replace_default_boost (.union (.list ⟨[], 0, 1⟩) (.list ⟨[3], 0, 2⟩)) 5 (.list ⟨[3], 0, 2⟩) (by decide) (by decide) (by decide)).1,
   (wrappingMatcher_replace_default_boost (.union (.list ⟨[], 0, 1⟩) (.list ⟨[3], 0, 2⟩)) 5 (.list ⟨[3], 0, 2⟩) (by decide) (by decide) (by decide)).2.1,
   (wrappingMatcher_replace_default_boost (.union (.list ⟨[], 0, 1⟩) (.list ⟨[3], 0, 2⟩)) 5 (.list ⟨[3], 0, 2⟩) (by decide) (by decide) (by decide)).2.2⟩

/-- A segment descriptor (fileindex.py, class `Segment`) restricted to the
fields the claims read: `doc_count_all` (the high-water document count
used by the merge policy) and the soft-delete set `deleted`, which is
`None` until the first deletion. -/
structure Segment where
  doc_count_all : Nat
  deleted : Option (Finset Nat)
deriving DecidableEq

/-- Python exceptions raised by `Segment.delete_document`. -/
inductive PyErr where
  | keyError
  | typeError
deriving DecidableEq

/-- `Segment.is_deleted(docnum)` (fileindex.py lines 547-551). -/
def Segment.is_deleted (s : Segment) (docnum : Nat) : Bool :=
  match s.deleted with
  | none => false
  | some d => decide (docnum ∈ d)

/-- `Segment.delete_document(docnum, delete=True)` (fileindex.py lines
525-545): create the set on first use, refuse redeletion with KeyError,
else add.  `delete=False`: KeyError when the set is absent or the docnum
is not in it; otherwise the source executes `self.deleted.clear(docnum)` —
Python's `set.clear` accepts no arguments, so the call raises TypeError
(and, had the argument been dropped, `clear()` would have emptied the
whole set rather than discarding one member). -/
def Segment.delete_document (s : Segment) (docnum : Nat) (delete : Bool) :
    Except PyErr Segment :=
  if delete then
    match s.deleted with
    | none => .ok { s with deleted := some {docnum} }
    | some d =>
      if docnum ∈ d then .error .keyError
      else .ok { s with deleted := some (insert docnum d) }
  else
    match s.deleted with
    | none => .error .keyError
    | some d =>
      if docnum ∉ d then .error .keyError
      else .error .typeError

/-- Claim C8, settled against the code: the `delete=True` half behaves as
claimed (first deletion creates the set, redeletion raises), but
`delete_document(5, delete=False)` on a segment whose deleted set is
`{5, 7}` raises TypeError instead of removing 5 and keeping 7 deleted,
because the source calls `set.clear(docnum)`. -/
theorem segment_delete_document_bug :
    Segment.delete_document ⟨10, none⟩ 5 true = .ok ⟨10, some {5}⟩
    ∧ Segment.delete_document ⟨10, some {5}⟩ 5 true = .error .keyError
    ∧ Segment.is_deleted ⟨10, some {5, 7}⟩ 5 = true
    ∧ Segment.delete_document ⟨10, some {5, 7}⟩ 5 false = .error .typeError :=
  ⟨rfl, rfl, by decide, rfl⟩

/-- Modelled from the spec: `whoosh.util.fib`, imported by
filewriting.py but not part of the provided sources.  Spec §4.6: "the
Fibonacci sequence starting fib(0)=0, fib(1)=1". -/
def fib : Nat → Nat
  | 0 => 0
  | 1 => 1
  | n + 2 => fib n + fib (n + 1)

/-- The walk of `MERGE_SMALL` (filewriting.py lines 44-62): enumerate the
sorted segment list with index `i` and running total `total`; a segment
with `count > 0` adds its count to the total and is absorbed (passed to
`writer.add_reader`) when `total < fib(i + 5)`, else retained in
`newsegments`; a segment with `count == 0` is skipped entirely — it is
neither absorbed nor retained, though it still advances `i`.  Returns
`(newsegments, absorbed)`. -/
def mergeSmallWalk : Nat → Nat → List Segment → List Segment × List Segment
  | _, _, [] => ([], [])
  | i, total, s :: rest =>
    if 0 < s.doc_count_all then
      if total + s.doc_count_all < fib (i + 5) then
        ((mergeSmallWalk (i + 1) (total + s.doc_count_all) rest).1,
         s :: (mergeSmallWalk (i + 1) (total + s.doc_count_all) rest).2)
      else
        (s :: (mergeSmallWalk (i + 1) (total + s.doc_count_all) rest).1,
         (mergeSmallWalk (i + 1) (total + s.doc_count_all) rest).2)
    else mergeSmallWalk (i + 1) total rest

/-- `MERGE_SMALL(writer, segments)`: sort by `doc_count_all` ascending
(the source sorts `(doc_count_all, segment)` tuples; the tie order among
equal counts is the arbitrary Python-2 object order, modelled here as a
stable sort) and walk.  The first component is the returned SegmentSet,
the second the list of absorbed segments. -/
def MERGE_SMALL (segments : List Segment) : List Segment × List Segment :=
  mergeSmallWalk 0 0
    (List.insertionSort (fun s t => s.doc_count_all ≤ t.doc_count_all) segments)

/-- Counterexample to claim C7: a single segment with `doc_count_all = 0`
is neither retained nor absorbed — `MERGE_SMALL` drops it, so the
returned set plus the absorbed segments do not partition the input. -/
theorem merge_small_zero_segment_counterexample :
    MERGE_SMALL [⟨0, none⟩] = ([], [])
    ∧ (⟨0, none⟩ : Segment) ∉ (MERGE_SMALL [⟨0, none⟩]).1
    ∧ (⟨0, none⟩ : Segment) ∉ (MERGE_SMALL [⟨0, none⟩]).2 :=
  ⟨by decide, by decide, by decide⟩

/-- The walk partitions exactly the positive-count segments of its
input. -/
theorem mergeSmallWalk_perm :
    ∀ (l : List Segment) (i total : Nat),
      ((mergeSmallWalk i total l).1 ++ (mergeSmallWalk i total l).2).Perm
        (l.filter (fun s => 0 < s.doc_count_all)) := by
  intro l
  induction l with
  | nil => intro i total; simp [mergeSmallWalk]
  | cons s rest ih =>
      intro i total
      by_cases h : 0 < s.doc_count_all
      · rw [List.filter_cons_of_pos (by simpa using h)]
        rw [mergeSmallWalk, if_pos h]
        by_cases h2 : total + s.doc_count_all < fib (i + 5)
        · rw [if_pos h2]
          exact List.perm_middle.trans ((ih (i + 1) (total + s.doc_count_all)).cons s)
        · rw [if_neg h2]
          simpa using (ih (i + 1) (total + s.doc_count_all)).cons s
      · rw [List.filter_cons_of_neg (by simpa using h)]
        rw [mergeSmallWalk, if_neg h]
        exact ih (i + 1) total

/-- Claim C7 amended: `MERGE_SMALL` sorts by `doc_count_all` ascending and
absorbs a positive-count segment at index `i` of the sorted list exactly
when the running total including it is `< fib(i + 5)`, but segments with
`doc_count_all = 0` are dropped (neither absorbed nor retained), so the
returned set plus the absorbed segments partition only the positive-count
segments of the input. -/
theorem merge_small_partition_amended (segments : List Segment) :
    ((MERGE_SMALL segments).1 ++ (MERGE_SMALL segments).2).Perm
      (segments.filter (fun s => 0 < s.doc_count_all)) := by
  refine (mergeSmallWalk_perm _ 0 0).trans ?_
  exact (List.perm_insertionSort _ segments).filter _

/-!
Typed array I/O (structfile.py).  An array element of width `w` is
modelled by its numeric value `v < 256 ^ w`; its in-memory representation
on a host is its base-256 digits in host order.  This captures both the
integer and the float typecodes: `write_array`/`read_array` only move and
reverse bytes, never interpret them.
-/

/-- The `w` base-256 digits of `v`, least significant first
(little-endian byte order). -/
def toLEBytes : Nat → Nat → List Nat
  | 0, _ => []
  | w + 1, v => v % 256 :: toLEBytes w (v / 256)

/-- Value of a little-endian byte list. -/
def fromLEBytes : List Nat → Nat
  | [] => 0
  | b :: bs => b + 256 * fromLEBytes bs

/-- `array.byteswap()` applied to one element of width `w`: reverse its
byte order. -/
def byteswap (w v : Nat) : Nat := fromLEBytes (toLEBytes w v).reverse

/-- The native in-memory byte sequence of one element on a host of the
given endianness. -/
def nativeBytes (hostLittle : Bool) (w v : Nat) : List Nat :=
  if hostLittle then toLEBytes w v else (toLEBytes w v).reverse

/-- The value read from a native `w`-byte sequence on a host of the given
endianness. -/
def nativeValue (hostLittle : Bool) (c : List Nat) : Nat :=
  if hostLittle then fromLEBytes c else fromLEBytes c.reverse

/-- `StructFile.write_array` (structfile.py lines 201-208), with
`IS_LITTLE = sys.byteorder == "little"`: on a little-endian host the
array is copied and byteswapped, then the (possibly swapped) array's
native bytes are emitted (`tofile` and `tostring` write the same
bytes). -/
def write_array (hostLittle : Bool) (w : Nat) (vs : List Nat) : List Nat :=
  ((if hostLittle then vs.map (byteswap w) else vs).map
    (nativeBytes hostLittle w)).flatten

/-- `array.fromfile(file, n)`: split `n` elements of `w` bytes each off
the front of the byte stream. -/
def chunks (w : Nat) : Nat → List Nat → List (List Nat)
  | 0, _ => []
  | n + 1, bs => bs.take w :: chunks w n (bs.drop w)

/-- `StructFile.read_array` (structfile.py lines 224-229): read `len`
elements in native order, then byteswap them when the host is
little-endian. -/
def read_array (hostLittle : Bool) (w len : Nat) (bs : List Nat) : List Nat :=
  (fun vs => if hostLittle then vs.map (byteswap w) else vs)
    ((chunks w len bs).map (nativeValue hostLittle))

/-- Counterexample to claim C9: writing the single element `1` of width 2
on a little-endian host emits `[0, 1]` — the big-endian byte order —
because `write_array` byteswaps exactly when `IS_LITTLE` holds; the
little-endian encoding required by the claim is `[1, 0]`. -/
theorem write_array_endianness_counterexample :
    write_array true 2 [1] = [0, 1]
    ∧ toLEBytes 2 1 = [1, 0]
    ∧ write_array true 2 [1] ≠ toLEBytes 2 1 :=
  ⟨rfl, rfl, by decide⟩

theorem length_toLEBytes (w : Nat) : ∀ v, (toLEBytes w v).length = w := by
  induction w with
  | zero => intro v; rfl
  | succ w ih => intro v; simp [toLEBytes, ih]

theorem toLEBytes_lt (w : Nat) : ∀ v, ∀ b ∈ toLEBytes w v, b < 256 := by
  induction w with
  | zero => simp [toLEBytes]
  | succ w ih =>
      intro v b hb
      rw [toLEBytes] at hb
      rcases List.mem_cons.1 hb with rfl | hb
      · exact Nat.mod_lt _ (by omega)
      · exact ih _ b hb

theorem fromLEBytes_toLEBytes (w : Nat) :
    ∀ v, v < 256 ^ w → fromLEBytes (toLEBytes w v) = v := by
  induction w with
  | zero =>
      intro v h
      rw [pow_zero] at h
      rw [toLEBytes, fromLEBytes]
      omega
  | succ w ih =>
      intro v h
      rw [toLEBytes, fromLEBytes]
      rw [ih (v / 256) (Nat.div_lt_of_lt_mul (by rw [pow_succ] at h; omega))]
      omega

theorem toLEBytes_fromLEBytes :
    ∀ (bs : List Nat), (∀ b ∈ bs, b < 256) →
      toLEBytes bs.length (fromLEBytes bs) = bs := by
  intro bs
  induction bs with
  | nil => intro _; rfl
  | cons b rest ih =>
      intro h
      have hb : b < 256 := h b (by simp)
      rw [List.length_cons, fromLEBytes, toLEBytes]
      have h1 : (b + 256 * fromLEBytes rest) % 256 = b := by omega
      have h2 : (b + 256 * fromLEBytes rest) / 256 = fromLEBytes rest := by omega
      rw [h1, h2, ih (fun c hc => h c (List.mem_cons_of_mem b hc))]

theorem toLEBytes_byteswap (w v : Nat) :
    toLEBytes w (byteswap w v) = (toLEBytes w v).reverse := by
  rw [byteswap]
  have hlen : (toLEBytes w v).reverse.length = w := by
    simp [length_toLEBytes]
  have := toLEBytes_fromLEBytes (toLEBytes w v).reverse
    (fun b hb => toLEBytes_lt w v b (List.mem_reverse.1 hb))
  rw [hlen] at this
  exact this

theorem byteswap_byteswap (w v : Nat) (h : v < 256 ^ w) :
    byteswap w (byteswap w v) = v := by
  conv_lhs => rw [byteswap]
  rw [toLEBytes_byteswap, List.reverse_reverse, fromLEBytes_toLEBytes w v h]

/-- Regardless of host endianness, the bytes on disk are each element's
big-endian encoding. -/
theorem write_array_is_big_endian (host : Bool) (w : Nat) (vs : List Nat) :
    write_array host w vs = (vs.map (fun v => (toLEBytes w v).reverse)).flatten := by
  cases host with
  | false =>
      rw [write_array, if_neg (by simp)]
      congr 1
  | true =>
      rw [write_array, if_pos rfl, List.map_map]
      congr 1
      refine List.map_congr_left ?_
      intro v _
      simp [nativeBytes, Function.comp, toLEBytes_byteswap]

theorem chunks_flatten (w : Nat) :
    ∀ (cs : List (List Nat)), (∀ c ∈ cs, c.length = w) →
      chunks w cs.length cs.flatten = cs := by
  intro cs
  induction cs with
  | nil => intro _; rfl
  | cons c rest ih =>
      intro h
      have hc : c.length = w := h c (by simp)
      rw [List.length_cons, List.flatten_cons, chunks,
        List.take_left' hc, List.drop_left' hc]
      rw [ih (fun d hd => h d (List.mem_cons_of_mem c hd))]

/-- Claim C9 amended: `write_array` emits each element in big-endian
byte order on every host, byte-swapping exactly when the host is
little-endian; `read_array` of the same width and length recovers the
original values on any host (including a host of the other
endianness). -/
theorem array_io_amended (hostW hostR : Bool) (w : Nat) (vs : List Nat)
    (h : ∀ v ∈ vs, v < 256 ^ w) :
    write_array hostW w vs = (vs.map (fun v => (toLEBytes w v).reverse)).flatten
    ∧ read_array hostR w vs.length (write_array hostW w vs) = vs := by
  refine ⟨write_array_is_big_endian hostW w vs, ?_⟩
  rw [write_array_is_big_endian, read_array]
  have hch : chunks w vs.length ((vs.map (fun v => (toLEBytes w v).reverse)).flatten)
      = vs.map (fun v => (toLEBytes w v).reverse) := by
    have := chunks_flatten w (vs.map (fun v => (toLEBytes w v).reverse)) ?_
    · rw [List.length_map] at this
      exact this
    · intro c hc
      rcases List.mem_map.1 hc with ⟨v, _, rfl⟩
      simp [length_toLEBytes]
  rw [hch]
  cases hostR with
  | false =>
      simp only [Bool.false_eq_true, if_false, List.map_map]
      refine (List.map_congr_left ?_).trans (List.map_id vs)
      intro v hv
      simp [nativeValue, Function.comp, List.reverse_reverse,
        fromLEBytes_toLEBytes w v (h v hv)]
  | true =>
      simp only [if_pos rfl, List.map_map]
      refine (List.map_congr_left ?_).trans (List.map_id vs)
      intro v hv
      have h1 : nativeValue true ((toLEBytes w v).reverse) = byteswap w v := by
        simp [nativeValue, byteswap]
      simp only [Function.comp_apply, id_eq, h1]
      exact byteswap_byteswap w v (h v hv)

/-- Witness for the amended C9: width-2 elements `[1, 258]` written on a
little-endian host and read back on a big-endian host. -/
theorem array_io_amended_witness :
    (∀ v ∈ [1, 258], v < 256 ^ 2)
    ∧ write_array true 2 [1, 258] =
        ([1, 258].map (fun v => (toLEBytes 2 v).reverse)).flatten
    ∧ read_array false 2 2 (write_array true 2 [1, 258]) = [1, 258] :=
  ⟨by decide,
   (array_io_amended true false 2 [1, 258] (by decide)).1,
   (array_io_amended true false 2 [1, 258] (by decide)).2⟩

end Whoosh
